import Mathlib

/-!
# CloudCostGuard — verification of the Cost Intelligence Engine

The repository's visible code is a presentation layer (React pages, forms,
typed API client interfaces in `frontend/src/types/index.ts`).  The backend
Cost Intelligence Engine (aggregation, efficiency scoring, trend/forecast,
recommendation generation and lifecycle) is specified but not shipped, so the
engine operations below are modelled from the specification, faithful to its
words; the data shapes mirror the TypeScript interfaces.  The frontend page
logic (`Overview`, `Recommendations`) that is present in the repository is
embedded directly from its source.

Monetary amounts and utilization values are rationals (`ℚ`); timestamps are
integers.  JavaScript number arithmetic appearing in the frontend embedding is
modelled with an explicit type carrying infinities and NaN, since the claims
about it concern division by zero.
-/

namespace CloudCostGuard

/-- Source of a cost record: `azure` or `kubernetes`. -/
inductive Source where
  | azure
  | kubernetes
deriving DecidableEq, Repr

/-- Modelled from the spec: canonical `CostRecord` produced by the Ingest
Normalizer (§3).  `ns` stands for the record's `namespace` field (a Lean
keyword); kubernetes records carry a namespace, azure records may not. -/
structure CostRecord where
  source : Source
  ns : Option String
  cluster_name : String
  service_name : String
  resource_name : String
  resource_type : String
  cost : ℚ
  timestamp : Int
deriving DecidableEq, Repr

/-- A half-open aggregation period `[period_start, period_end)` (§3, glossary). -/
structure Period where
  period_start : Int
  period_end : Int
deriving DecidableEq, Repr

/-- Start-inclusive, end-exclusive period membership (§4.1). -/
def inPeriod (p : Period) (r : CostRecord) : Bool :=
  decide (p.period_start ≤ r.timestamp) && decide (r.timestamp < p.period_end)

/-- Modelled from the spec: a record is malformed — and skipped by the
aggregator — when its cost is negative or it is kubernetes-sourced without a
namespace (§4.1 failure handling). -/
def validRecord (r : CostRecord) : Bool :=
  decide (0 ≤ r.cost) &&
    (match r.source with
     | Source.kubernetes => r.ns.isSome
     | Source.azure => true)

/-- Records that participate in an aggregation run: well-formed and inside the
period. -/
def includedRecords (records : List CostRecord) (p : Period) : List CostRecord :=
  records.filter (fun r => validRecord r && inPeriod p r)

/-- Modelled from the spec: the fixed classification table deriving a cost
category from `resource_type` / `service_name` (§4.1, §9), with an open
"other" bucket. -/
def categoryOf (r : CostRecord) : String :=
  if r.resource_type == "pod" || r.resource_type == "deployment" then "compute"
  else if r.resource_type == "persistentvolumeclaim" then "storage"
  else if r.service_name == "Virtual Machines" then "compute"
  else if r.service_name == "Azure Kubernetes Service" then "compute"
  else if r.service_name == "Storage" then "storage"
  else if r.service_name == "Bandwidth" then "network"
  else "other"

/-- Sum of the costs of a list of records. -/
def sumCosts (l : List CostRecord) : ℚ :=
  (l.map CostRecord.cost).sum

/-- The category→cost breakdown mapping of a record group: one entry per
distinct category, holding the sum of the costs of the group's records in that
category. -/
def breakdownFor (l : List CostRecord) : List (String × ℚ) :=
  ((l.map categoryOf).dedup).map
    (fun c => (c, sumCosts (l.filter (fun r => categoryOf r == c))))

/-- `CostOverview`, mirroring `frontend/src/types/index.ts`; the breakdown
mapping is an association list. -/
structure CostOverview where
  total_cost : ℚ
  azure_cost : ℚ
  kubernetes_cost : ℚ
  period_start : Int
  period_end : Int
  currency : String
  cost_breakdown : List (String × ℚ)
deriving DecidableEq, Repr

/-- `NamespaceCost`, mirroring `frontend/src/types/index.ts`; `ns` is the
`namespace` field. -/
structure NamespaceCost where
  ns : String
  cluster_name : String
  total_cost : ℚ
  cost_breakdown : List (String × ℚ)
  period_start : Int
  period_end : Int
deriving DecidableEq, Repr

/-- Modelled from the spec: the overview half of `Aggregate` (§4.1) —
`azure_cost` / `kubernetes_cost` partitioned strictly by `source`,
`total_cost` the sum over all included records. -/
def aggregateOverview (records : List CostRecord) (p : Period) : CostOverview :=
  let inc := includedRecords records p
  { total_cost := sumCosts inc
    azure_cost := sumCosts (inc.filter (fun r => r.source == Source.azure))
    kubernetes_cost := sumCosts (inc.filter (fun r => r.source == Source.kubernetes))
    period_start := p.period_start
    period_end := p.period_end
    currency := "USD"
    cost_breakdown := breakdownFor inc }

/-- The distinct (namespace, cluster) grouping keys of a record list; records
without a namespace do not contribute a namespace group. -/
def nsKeys (l : List CostRecord) : List (String × String) :=
  (l.filterMap (fun r => r.ns.map (fun n => (n, r.cluster_name)))).dedup

/-- The records of a group key. -/
def recordsForKey (l : List CostRecord) (k : String × String) : List CostRecord :=
  l.filter (fun r => r.ns == some k.1 && r.cluster_name == k.2)

/-- Modelled from the spec: the per-namespace half of `Aggregate` (§4.1) —
one `NamespaceCost` per (namespace, cluster) key, recomputed wholesale. -/
def aggregateNamespaces (records : List CostRecord) (p : Period) :
    List NamespaceCost :=
  let inc := includedRecords records p
  (nsKeys inc).map (fun k =>
    let recs := recordsForKey inc k
    { ns := k.1
      cluster_name := k.2
      total_cost := sumCosts recs
      cost_breakdown := breakdownFor recs
      period_start := p.period_start
      period_end := p.period_end })

/-- Result of an aggregation run: overview, per-namespace costs, and the count
of skipped malformed records (§4.1). -/
structure AggregateResult where
  overview : CostOverview
  perNamespace : List NamespaceCost
  skipped_count : Nat
deriving DecidableEq, Repr

/-- Modelled from the spec: `Aggregate(records, period)` (§4.1), a pure
function of its inputs. -/
def aggregate (records : List CostRecord) (p : Period) : AggregateResult :=
  { overview := aggregateOverview records p
    perNamespace := aggregateNamespaces records p
    skipped_count := (records.filter (fun r => inPeriod p r && !validRecord r)).length }

/-- Fiberwise sum over the distinct values of `f`: summing, over each distinct
key of `l.map f`, the `g`-sum of the fiber recovers the `g`-sum of `l`. -/
theorem sum_fiberwise_toFinset {α β : Type} [DecidableEq α] [DecidableEq β]
    (l : List α) (f : α → β) (g : α → ℚ) :
    (∑ b ∈ (l.map f).toFinset, ((l.filter (fun a => f a == b)).map g).sum)
      = (l.map g).sum := by
  induction l with
  | nil => simp
  | cons a t ih =>
    have hsplit :
        ∀ b, (((a :: t).filter (fun x => f x == b)).map g).sum
          = (if b = f a then g a else 0)
              + ((t.filter (fun x => f x == b)).map g).sum := by
      intro b
      by_cases hb : f a = b
      · subst hb
        simp [List.filter_cons]
      · simp [List.filter_cons, beq_iff_eq, hb, Ne.symm hb]
    have hmap : ((a :: t).map f).toFinset
        = insert (f a) ((t.map f).toFinset) := by
      simp
    rw [hmap]
    have hsum :
        (∑ b ∈ insert (f a) ((t.map f).toFinset),
            (((a :: t).filter (fun x => f x == b)).map g).sum)
          = (∑ b ∈ insert (f a) ((t.map f).toFinset), (if b = f a then g a else 0))
            + (∑ b ∈ insert (f a) ((t.map f).toFinset),
                ((t.filter (fun x => f x == b)).map g).sum) := by
      rw [← Finset.sum_add_distrib]
      exact Finset.sum_congr rfl (fun b _ => hsplit b)
    rw [hsum]
    have hι : (∑ b ∈ insert (f a) ((t.map f).toFinset),
        (if b = f a then g a else 0)) = g a := by
      rw [Finset.sum_ite_eq' (insert (f a) ((t.map f).toFinset)) (f a) (fun _ => g a)]
      simp
    rw [hι]
    by_cases hmem : f a ∈ (t.map f).toFinset
    · rw [Finset.insert_eq_self.mpr hmem, ih]
      simp [List.map_cons, List.sum_cons]
    · rw [Finset.sum_insert hmem]
      have hnil : t.filter (fun x => f x == f a) = [] := by
        apply List.filter_eq_nil_iff.mpr
        intro x hx hfx
        exact hmem (by
          rw [List.mem_toFinset]
          exact List.mem_map.mpr ⟨x, hx, by simpa [beq_iff_eq] using hfx⟩)
      rw [hnil, ih]
      simp [List.map_cons, List.sum_cons]

/-- The values of a group's breakdown mapping sum to the group's cost sum. -/
theorem breakdownFor_sum (l : List CostRecord) :
    ((breakdownFor l).map Prod.snd).sum = sumCosts l := by
  have h := sum_fiberwise_toFinset l categoryOf CostRecord.cost
  rw [breakdownFor, sumCosts]
  rw [List.map_map]
  have hnd : ((l.map categoryOf).dedup).toFinset = (l.map categoryOf).toFinset :=
    List.toFinset.ext_iff.mpr (fun _ => List.mem_dedup)
  have hdd : ((l.map categoryOf).dedup.map
      (fun c => ((l.filter (fun r => categoryOf r == c)).map CostRecord.cost).sum)).sum
      = ∑ b ∈ (l.map categoryOf).toFinset,
          ((l.filter (fun r => categoryOf r == b)).map CostRecord.cost).sum := by
    rw [← hnd]
    exact (List.sum_toFinset _ (List.nodup_dedup _)).symm
  have hfun : (Prod.snd ∘ fun c =>
      (c, sumCosts (l.filter (fun r => categoryOf r == c))))
      = fun c => ((l.filter (fun r => categoryOf r == c)).map CostRecord.cost).sum := by
    funext c
    simp [sumCosts]
  rw [hfun, hdd, h]

/-- C1: every `NamespaceCost` value produced by the Cost Aggregator has the
sum of the values of its `cost_breakdown` mapping equal to its `total_cost`
field (exactly, in `ℚ`). -/
theorem namespaceCost_breakdown_sum_eq_total (records : List CostRecord)
    (p : Period) (nc : NamespaceCost)
    (h : nc ∈ (aggregate records p).perNamespace) :
    (nc.cost_breakdown.map Prod.snd).sum = nc.total_cost := by
  simp only [aggregate, aggregateNamespaces] at h
  rcases List.mem_map.mp h with ⟨k, _, rfl⟩
  exact breakdownFor_sum _

/-- Concrete aggregation run witnessing C1: one kubernetes pod record and one
azure storage record in the period. -/
def sampleRecordsC1 : List CostRecord :=
  [{ source := Source.kubernetes, ns := some "default", cluster_name := "c1",
     service_name := "", resource_name := "pod-a", resource_type := "pod",
     cost := 10, timestamp := 5 },
   { source := Source.azure, ns := some "default", cluster_name := "c1",
     service_name := "Storage", resource_name := "disk-1",
     resource_type := "disk", cost := 7, timestamp := 6 }]

/-- The `NamespaceCost` that aggregating `sampleRecordsC1` over `[0, 10)`
produces. -/
def sampleNamespaceCostC1 : NamespaceCost :=
  { ns := "default", cluster_name := "c1", total_cost := 17,
    cost_breakdown := [("compute", 10), ("storage", 7)],
    period_start := 0, period_end := 10 }

theorem namespaceCost_breakdown_sum_eq_total_witness :
    sampleNamespaceCostC1 ∈ (aggregate sampleRecordsC1 ⟨0, 10⟩).perNamespace
    ∧ (sampleNamespaceCostC1.cost_breakdown.map Prod.snd).sum
        = sampleNamespaceCostC1.total_cost :=
  ⟨by simp [aggregate, aggregateNamespaces, includedRecords, inPeriod,
      validRecord, nsKeys, recordsForKey, breakdownFor, categoryOf, sumCosts,
      sampleRecordsC1, sampleNamespaceCostC1, List.filter_cons]; norm_num,
   namespaceCost_breakdown_sum_eq_total sampleRecordsC1 ⟨0, 10⟩ _
     (by simp [aggregate, aggregateNamespaces, includedRecords, inPeriod,
        validRecord, nsKeys, recordsForKey, breakdownFor, categoryOf, sumCosts,
        sampleRecordsC1, sampleNamespaceCostC1, List.filter_cons]; norm_num)⟩

/-- Cost sums partition by record source: the sum over a record list is the
azure-filtered sum plus the kubernetes-filtered sum. -/
theorem sumCosts_partition_source (l : List CostRecord) :
    sumCosts l = sumCosts (l.filter (fun r => r.source == Source.azure))
      + sumCosts (l.filter (fun r => r.source == Source.kubernetes)) := by
  induction l with
  | nil => simp [sumCosts]
  | cons a t ih =>
    simp only [sumCosts, List.map_cons, List.sum_cons, List.filter_cons] at *
    cases ha : a.source with
    | azure =>
      simp [ha, ih]
      ring
    | kubernetes =>
      simp [ha, ih]
      ring

/-- Scenario record set for C4: azure records totaling 500, kubernetes records
totaling 300, all inside the period. -/
def scenarioRecordsC4 : List CostRecord :=
  [{ source := Source.azure, ns := none, cluster_name := "c1",
     service_name := "Virtual Machines", resource_name := "vm-1",
     resource_type := "vm", cost := 200, timestamp := 3 },
   { source := Source.azure, ns := none, cluster_name := "c1",
     service_name := "Storage", resource_name := "disk-1",
     resource_type := "disk", cost := 300, timestamp := 4 },
   { source := Source.kubernetes, ns := some "default", cluster_name := "c1",
     service_name := "", resource_name := "pod-a", resource_type := "pod",
     cost := 120, timestamp := 5 },
   { source := Source.kubernetes, ns := some "kube-system",
     cluster_name := "c1", service_name := "", resource_name := "pod-b",
     resource_type := "pod", cost := 180, timestamp := 6 }]

/-- C4: for every record set, the overview produced by `Aggregate` satisfies
`total_cost = azure_cost + kubernetes_cost`, with `azure_cost` and
`kubernetes_cost` the cost sums of the included records whose source is
`azure` respectively `kubernetes`; ingesting records totaling 500 from Azure
and 300 from Kubernetes yields totals 800 / 500 / 300. -/
theorem overview_total_partitions_by_source :
    (∀ (records : List CostRecord) (p : Period),
        (aggregate records p).overview.total_cost
          = (aggregate records p).overview.azure_cost
              + (aggregate records p).overview.kubernetes_cost
        ∧ (aggregate records p).overview.azure_cost
          = sumCosts ((includedRecords records p).filter
              (fun r => r.source == Source.azure))
        ∧ (aggregate records p).overview.kubernetes_cost
          = sumCosts ((includedRecords records p).filter
              (fun r => r.source == Source.kubernetes)))
    ∧ (aggregate scenarioRecordsC4 ⟨0, 10⟩).overview.total_cost = 800
    ∧ (aggregate scenarioRecordsC4 ⟨0, 10⟩).overview.azure_cost = 500
    ∧ (aggregate scenarioRecordsC4 ⟨0, 10⟩).overview.kubernetes_cost = 300 := by
  refine ⟨fun records p => ⟨?_, rfl, rfl⟩, ?_, ?_, ?_⟩
  · exact sumCosts_partition_source (includedRecords records p)
  · simp [aggregate, aggregateOverview, includedRecords, inPeriod,
      validRecord, sumCosts, scenarioRecordsC4, List.filter_cons]; norm_num
  · simp [aggregate, aggregateOverview, includedRecords, inPeriod,
      validRecord, sumCosts, scenarioRecordsC4, List.filter_cons]; norm_num
  · simp [aggregate, aggregateOverview, includedRecords, inPeriod,
      validRecord, sumCosts, scenarioRecordsC4, List.filter_cons]; norm_num

/-- Filtering an appended record list appends the filtered parts. -/
theorem includedRecords_append (A B : List CostRecord) (p : Period) :
    includedRecords (A ++ B) p = includedRecords A p ++ includedRecords B p :=
  List.filter_append _ _

/-- Cost sums are additive over list append. -/
theorem sumCosts_append (l₁ l₂ : List CostRecord) :
    sumCosts (l₁ ++ l₂) = sumCosts l₁ + sumCosts l₂ := by
  simp [sumCosts]

/-- C6: for all non-overlapping record sets `A` and `B` over the same period,
the totals of `Aggregate (A ++ B)` equal, per matching group (overview source
split, per (namespace, cluster) key, and per category within a key), the sums
of the totals of `Aggregate A` and `Aggregate B`. -/
theorem aggregate_additive (A B : List CostRecord) (p : Period)
    (_hdisj : ∀ r, r ∈ A → r ∉ B) :
    (aggregate (A ++ B) p).overview.total_cost
        = (aggregate A p).overview.total_cost
            + (aggregate B p).overview.total_cost
    ∧ (aggregate (A ++ B) p).overview.azure_cost
        = (aggregate A p).overview.azure_cost
            + (aggregate B p).overview.azure_cost
    ∧ (aggregate (A ++ B) p).overview.kubernetes_cost
        = (aggregate A p).overview.kubernetes_cost
            + (aggregate B p).overview.kubernetes_cost
    ∧ (∀ k, sumCosts (recordsForKey (includedRecords (A ++ B) p) k)
        = sumCosts (recordsForKey (includedRecords A p) k)
            + sumCosts (recordsForKey (includedRecords B p) k))
    ∧ (∀ k c,
        sumCosts ((recordsForKey (includedRecords (A ++ B) p) k).filter
            (fun r => categoryOf r == c))
        = sumCosts ((recordsForKey (includedRecords A p) k).filter
              (fun r => categoryOf r == c))
            + sumCosts ((recordsForKey (includedRecords B p) k).filter
              (fun r => categoryOf r == c))) := by
  refine ⟨?_, ?_, ?_, ?_, ?_⟩
  · simp only [aggregate, aggregateOverview, includedRecords_append,
      sumCosts_append]
  · simp only [aggregate, aggregateOverview, includedRecords_append,
      List.filter_append, sumCosts_append]
  · simp only [aggregate, aggregateOverview, includedRecords_append,
      List.filter_append, sumCosts_append]
  · intro k
    simp only [recordsForKey, includedRecords_append, List.filter_append,
      sumCosts_append]
  · intro k c
    simp only [recordsForKey, includedRecords_append, List.filter_append,
      sumCosts_append]

theorem aggregate_additive_witness :
    (∀ r, r ∈ sampleRecordsC1 → r ∉ scenarioRecordsC4)
    ∧ ((aggregate (sampleRecordsC1 ++ scenarioRecordsC4) ⟨0, 10⟩).overview.total_cost
        = (aggregate sampleRecordsC1 ⟨0, 10⟩).overview.total_cost
            + (aggregate scenarioRecordsC4 ⟨0, 10⟩).overview.total_cost) :=
  ⟨by decide,
   (aggregate_additive sampleRecordsC1 scenarioRecordsC4 ⟨0, 10⟩ (by decide)).1⟩

/-- Recommendation lifecycle status (types/index.ts: `pending`, `implemented`,
`dismissed`). -/
inductive RecStatus where
  | pending
  | implemented
  | dismissed
deriving DecidableEq, Repr

/-- Recommendation priority (types/index.ts: `high`, `medium`, `low`). -/
inductive Priority where
  | high
  | medium
  | low
deriving DecidableEq, Repr

/-- Error taxonomy of the engine (spec §7). -/
inductive EngineError where
  | validationError
  | upstreamCollectionError
  | insufficientData
  | invalidTransition
  | notFound
deriving DecidableEq, Repr

/-- `OptimizationRecommendation`, mirroring `frontend/src/types/index.ts`;
`ns` is the `namespace` field. -/
structure OptimizationRecommendation where
  id : Nat
  ns : String
  cluster_name : String
  resource_type : String
  resource_name : String
  recommendation_type : String
  current_value : ℚ
  recommended_value : ℚ
  potential_savings : ℚ
  confidence_score : ℚ
  priority : Priority
  description : String
  implementation_steps : List String
  status : RecStatus
  created_at : Int
  implemented_at : Option Int
deriving DecidableEq, Repr

/-- Modelled from the spec: the Lifecycle Manager's status-transition step
(§4.5) — `pending → implemented` sets `implemented_at := now`,
`pending → dismissed` succeeds, and every other requested transition fails
with `InvalidTransition`, returning no modified record. -/
def updateStatus (r : OptimizationRecommendation) (target : RecStatus)
    (now : Int) : Except EngineError OptimizationRecommendation :=
  match r.status, target with
  | RecStatus.pending, RecStatus.implemented =>
      Except.ok { r with status := RecStatus.implemented,
                         implemented_at := some now }
  | RecStatus.pending, RecStatus.dismissed =>
      Except.ok { r with status := RecStatus.dismissed }
  | _, _ => Except.error EngineError.invalidTransition

/-- C2: the only status transitions that succeed are `pending → implemented`
(which sets `implemented_at`) and `pending → dismissed`; a status-update
attempt on an `implemented` or `dismissed` recommendation fails with
`InvalidTransition` (no record is produced, so every field is left
unchanged), and a successful update changes nothing besides `status` and
`implemented_at`. -/
theorem recommendation_status_transitions
    (r : OptimizationRecommendation) (target : RecStatus) (now : Int) :
    (r.status = RecStatus.pending →
        updateStatus r RecStatus.implemented now
          = Except.ok { r with status := RecStatus.implemented,
                               implemented_at := some now })
    ∧ (r.status = RecStatus.pending →
        updateStatus r RecStatus.dismissed now
          = Except.ok { r with status := RecStatus.dismissed })
    ∧ (r.status = RecStatus.implemented ∨ r.status = RecStatus.dismissed →
        updateStatus r target now = Except.error EngineError.invalidTransition)
    ∧ (∀ r', updateStatus r target now = Except.ok r' →
        r.status = RecStatus.pending
        ∧ (target = RecStatus.implemented ∨ target = RecStatus.dismissed)) := by
  refine ⟨?_, ?_, ?_, ?_⟩
  · intro h
    simp [updateStatus, h]
  · intro h
    simp [updateStatus, h]
  · rintro (h | h) <;> cases ht : target <;> simp [updateStatus, h]
  · intro r' h
    cases hs : r.status <;> cases ht : target <;>
      simp [updateStatus, hs, ht] at h ⊢

/-- A concrete pending recommendation used by the lifecycle witnesses. -/
def sampleRecC2 : OptimizationRecommendation :=
  { id := 1, ns := "default", cluster_name := "c1",
    resource_type := "deployment", resource_name := "web",
    recommendation_type := "right_sizing", current_value := 4,
    recommended_value := 2, potential_savings := 50, confidence_score := 4/5,
    priority := Priority.high, description := "Reduce CPU requests",
    implementation_steps := ["edit deployment", "apply"],
    status := RecStatus.pending, created_at := 0, implemented_at := none }

theorem recommendation_status_transitions_witness :
    sampleRecC2.status = RecStatus.pending
    ∧ updateStatus sampleRecC2 RecStatus.implemented 5
        = Except.ok { sampleRecC2 with status := RecStatus.implemented,
                                       implemented_at := some 5 }
    ∧ updateStatus { sampleRecC2 with status := RecStatus.dismissed }
        RecStatus.implemented 6
        = Except.error EngineError.invalidTransition :=
  ⟨rfl,
   (recommendation_status_transitions sampleRecC2 RecStatus.implemented 5).1 rfl,
   (recommendation_status_transitions
      { sampleRecC2 with status := RecStatus.dismissed }
      RecStatus.implemented 6).2.2.1 (Or.inr rfl)⟩

/-- `CostComparison`, mirroring `frontend/src/types/index.ts`; the
`percentage_change` field carries the zero-previous sentinel as `none`
(spec §3: "defined as null/∞ sentinel when previous=0"). -/
structure CostComparison where
  current_period_cost : ℚ
  previous_period_cost : ℚ
  percentage_change : Option ℚ
  absolute_change : ℚ
deriving DecidableEq, Repr

/-- Modelled from the spec: `Compare` (§4.3) — `absolute_change` is the
difference, `percentage_change = (current - previous) / previous` with the
sentinel (no division) when `previous = 0`. -/
def comparePeriods (current previous : ℚ) : CostComparison :=
  { current_period_cost := current
    previous_period_cost := previous
    absolute_change := current - previous
    percentage_change :=
      if previous = 0 then none else some ((current - previous) / previous) }

/-- C3: `Compare` computes `percentage_change` as
`(current - previous) / previous`, and when `previous = 0` it returns the
defined sentinel instead of dividing; in particular `previous = 0`,
`current = 50` yields the sentinel. -/
theorem compare_percentage_change_guarded :
    (∀ current previous : ℚ, previous ≠ 0 →
        (comparePeriods current previous).percentage_change
          = some ((current - previous) / previous))
    ∧ (∀ current : ℚ,
        (comparePeriods current 0).percentage_change = none)
    ∧ (comparePeriods 50 0).percentage_change = none := by
  refine ⟨?_, ?_, ?_⟩
  · intro current previous h
    simp [comparePeriods, h]
  · intro current
    simp [comparePeriods]
  · simp [comparePeriods]

theorem compare_percentage_change_guarded_witness :
    ((75 : ℚ) ≠ 0
      ∧ (comparePeriods 50 75).percentage_change = some ((50 - 75) / 75))
    ∧ (comparePeriods 50 0).percentage_change = none :=
  ⟨⟨by norm_num, compare_percentage_change_guarded.1 50 75 (by norm_num)⟩,
   compare_percentage_change_guarded.2.2⟩

/-- A recommendation candidate produced by the generator's analysis phase
(spec §4.4), before persistence and deduplication; `ns` is the `namespace`
field. -/
structure Candidate where
  ns : String
  cluster_name : String
  resource_type : String
  resource_name : String
  recommendation_type : String
  current_value : ℚ
  recommended_value : ℚ
  potential_savings : ℚ
  confidence_score : ℚ
  priority : Priority
  description : String
  implementation_steps : List String
deriving DecidableEq, Repr

/-- The deduplication key comparison (spec §4.4): same
(namespace, resource_name, recommendation_type). -/
def sameDedupKey (r : OptimizationRecommendation) (c : Candidate) : Bool :=
  r.ns == c.ns && r.resource_name == c.resource_name
    && r.recommendation_type == c.recommendation_type

/-- Modelled from the spec: a candidate is blocked when some existing
**pending** recommendation shares its dedup key (spec §4.4); implemented and
dismissed records are not consulted. -/
def blocks (existing : List OptimizationRecommendation) (c : Candidate) : Bool :=
  existing.any (fun r => r.status == RecStatus.pending && sameDedupKey r c)

/-- The pending recommendation record persisted for a candidate. -/
def mkRecommendation (c : Candidate) (id : Nat) (now : Int) :
    OptimizationRecommendation :=
  { id := id, ns := c.ns, cluster_name := c.cluster_name,
    resource_type := c.resource_type, resource_name := c.resource_name,
    recommendation_type := c.recommendation_type,
    current_value := c.current_value,
    recommended_value := c.recommended_value,
    potential_savings := c.potential_savings,
    confidence_score := c.confidence_score, priority := c.priority,
    description := c.description,
    implementation_steps := c.implementation_steps,
    status := RecStatus.pending, created_at := now, implemented_at := none }

/-- Modelled from the spec: the generator's persistence pass (§4.4) — each
candidate in turn is skipped when a pending recommendation with the same
dedup key already exists (among prior records or records created earlier in
the same run), and otherwise creates a new pending record.  Returns the list
of newly created records. -/
def generateNew : List Candidate → List OptimizationRecommendation → Nat → Int →
    List OptimizationRecommendation
  | [], _, _, _ => []
  | c :: rest, existing, nextId, now =>
    if blocks existing c then generateNew rest existing nextId now
    else
      mkRecommendation c nextId now
        :: generateNew rest (mkRecommendation c nextId now :: existing)
            (nextId + 1) now

/-- Result of a `Generate` run: the persisted recommendation set and the
count of newly created records. -/
structure GenerateResult where
  state : List OptimizationRecommendation
  generated_count : Nat
deriving DecidableEq, Repr

/-- Modelled from the spec: `Generate` (§4.4) — persist the non-blocked
candidates and report how many were newly created after dedup. -/
def generateRun (cs : List Candidate)
    (existing : List OptimizationRecommendation) (nextId : Nat) (now : Int) :
    GenerateResult :=
  { state := existing ++ generateNew cs existing nextId now
    generated_count := (generateNew cs existing nextId now).length }

/-- `blocks` in propositional form. -/
theorem blocks_iff (existing : List OptimizationRecommendation)
    (c : Candidate) :
    blocks existing c = true
      ↔ ∃ r ∈ existing, r.status = RecStatus.pending ∧ sameDedupKey r c = true := by
  simp [blocks, List.any_eq_true]

/-- A freshly created record blocks its own candidate. -/
theorem mkRecommendation_blocks (c : Candidate) (id : Nat) (now : Int) :
    (mkRecommendation c id now).status = RecStatus.pending
      ∧ sameDedupKey (mkRecommendation c id now) c = true := by
  constructor
  · rfl
  · simp [sameDedupKey, mkRecommendation]

/-- After a generation run, every processed candidate is blocked in the
resulting state: either a pending record with its key pre-existed and
persists,-- or the run itself created one. -/
theorem blocks_after_generateNew
    (cs : List Candidate) (existing : List OptimizationRecommendation)
    (nextId : Nat) (now : Int) (c : Candidate) (hc : c ∈ cs) :
    blocks (existing ++ generateNew cs existing nextId now) c = true := by
  induction cs generalizing existing nextId with
  | nil => cases hc
  | cons c' rest ih =>
    by_cases hb : blocks existing c' = true
    · rw [generateNew, if_pos hb]
      rcases List.mem_cons.mp hc with hceq | hcrest
      · subst hceq
        rcases (blocks_iff existing c).mp hb with ⟨r, hr, hrp, hrk⟩
        exact (blocks_iff _ c).mpr ⟨r, List.mem_append_left _ hr, hrp, hrk⟩
      · exact ih existing nextId hcrest
    · rw [generateNew, if_neg hb]
      rcases List.mem_cons.mp hc with hceq | hcrest
      · subst hceq
        refine (blocks_iff _ c).mpr
          ⟨mkRecommendation c nextId now, ?_, (mkRecommendation_blocks c nextId now).1,
            (mkRecommendation_blocks c nextId now).2⟩
        exact List.mem_append_right _ (List.mem_cons_self _ _)
      · have h := ih (mkRecommendation c' nextId now :: existing) (nextId + 1) hcrest
        rcases (blocks_iff _ c).mp h with ⟨r, hr, hrp, hrk⟩
        refine (blocks_iff _ c).mpr ⟨r, ?_, hrp, hrk⟩
        rcases List.mem_append.mp hr with hr0 | hr1
        · rcases List.mem_cons.mp hr0 with hre | hre
          · exact List.mem_append_right _ (hre ▸ List.mem_cons_self _ _)
          · exact List.mem_append_left _ hre
        · exact List.mem_append_right _ (List.mem_cons_of_mem _ hr1)

/-- When every candidate is already blocked, a run creates nothing. -/
theorem generateNew_eq_nil_of_all_blocked
    (cs : List Candidate) (existing : List OptimizationRecommendation)
    (nextId : Nat) (now : Int)
    (h : ∀ c ∈ cs, blocks existing c = true) :
    generateNew cs existing nextId now = [] := by
  induction cs with
  | nil => rfl
  | cons c rest ih =>
    rw [generateNew, if_pos (h c (List.mem_cons_self _ _))]
    exact ih (fun c' hc' => h c' (List.mem_cons_of_mem _ hc'))

/-- C5: `Generate` is idempotent under deduplication — re-running it on the
same candidates over the state it produced creates 0 new records, because a
candidate is skipped exactly when an existing pending recommendation shares
its (namespace, resource_name, recommendation_type) key, while implemented or
dismissed records never block creation. -/
theorem generate_idempotent_dedup :
    (∀ (cs : List Candidate) (existing : List OptimizationRecommendation)
        (n₁ n₂ : Nat) (t₁ t₂ : Int),
        (generateRun cs (generateRun cs existing n₁ t₁).state n₂ t₂).generated_count
          = 0)
    ∧ (∀ (c : Candidate) (existing : List OptimizationRecommendation)
        (n : Nat) (t : Int),
        (∃ r ∈ existing, r.status = RecStatus.pending ∧ sameDedupKey r c = true) →
        generateNew [c] existing n t = [])
    ∧ (∀ (c : Candidate) (existing : List OptimizationRecommendation)
        (n : Nat) (t : Int),
        (∀ r ∈ existing, sameDedupKey r c = true → r.status ≠ RecStatus.pending) →
        generateNew [c] existing n t = [mkRecommendation c n t]) := by
  refine ⟨?_, ?_, ?_⟩
  · intro cs existing n₁ n₂ t₁ t₂
    simp only [generateRun, List.length_eq_zero]
    exact generateNew_eq_nil_of_all_blocked _ _ _ _
      (fun c hc => blocks_after_generateNew cs existing n₁ t₁ c hc)
  · intro c existing n t h
    rw [generateNew, if_pos ((blocks_iff existing c).mpr h)]
    rfl
  · intro c existing n t h
    have hb : ¬ blocks existing c = true := by
      intro hb
      rcases (blocks_iff existing c).mp hb with ⟨r, hr, hrp, hrk⟩
      exact h r hr hrk hrp
    rw [generateNew, if_neg hb]
    rfl

/-- A concrete candidate used by the generator witnesses. -/
def sampleCandidateC5 : Candidate :=
  { ns := "default", cluster_name := "c1", resource_type := "deployment",
    resource_name := "web", recommendation_type := "right_sizing",
    current_value := 4, recommended_value := 2, potential_savings := 50,
    confidence_score := 4/5, priority := Priority.high,
    description := "Reduce CPU requests",
    implementation_steps := ["edit deployment", "apply"] }

theorem generate_idempotent_dedup_witness :
    (generateRun [sampleCandidateC5]
        (generateRun [sampleCandidateC5] [] 0 0).state 1 1).generated_count = 0
    ∧ generateNew [sampleCandidateC5]
        [{ mkRecommendation sampleCandidateC5 7 0 with
            status := RecStatus.dismissed }] 0 0
        = [mkRecommendation sampleCandidateC5 0 0] :=
  ⟨generate_idempotent_dedup.1 [sampleCandidateC5] [] 0 1 0 1,
   generate_idempotent_dedup.2.2 sampleCandidateC5
     [{ mkRecommendation sampleCandidateC5 7 0 with
         status := RecStatus.dismissed }] 0 0
     (by decide)⟩

/-- Forecast trend direction (types/index.ts: `increasing`, `decreasing`,
`stable`). -/
inductive TrendDirection where
  | increasing
  | decreasing
  | stable
deriving DecidableEq, Repr

/-- `CostForecast`, mirroring `frontend/src/types/index.ts` (historical
series, projected costs, trend direction and monthly change rate). -/
structure CostForecast where
  historical_data : List ℚ
  forecast : List ℚ
  trend_direction : TrendDirection
  monthly_change_rate : ℚ
deriving DecidableEq, Repr

/-- The stable band half-width for the trend direction: `|rate| < 2%` is
`stable` (spec §3 default). -/
def stableBand : ℚ := 2 / 100

/-- Modelled from the spec: the simple month-over-month average delta of a
cost history — the mean of the consecutive differences, i.e.
`(last - first) / (length - 1)` (§4.3). -/
def monthlyDelta (history : List ℚ) : ℚ :=
  (history.getLastD 0 - history.headD 0) / ((history.length : ℚ) - 1)

/-- Modelled from the spec: `monthly_change_rate`, the average delta as a
fraction of the starting cost. -/
def changeRate (history : List ℚ) : ℚ :=
  monthlyDelta history / history.headD 0

/-- Modelled from the spec: `trend_direction` is determined by the
`monthly_change_rate` threshold band — `|rate| < 2% ⇒ stable`, otherwise the
sign decides (§3). -/
def trendFromRate (rate : ℚ) : TrendDirection :=
  if |rate| < stableBand then TrendDirection.stable
  else if 0 < rate then TrendDirection.increasing
  else TrendDirection.decreasing

/-- Modelled from the spec: `Forecast(history, horizonMonths)` (§4.3) —
fails with `InsufficientData` below 2 historical points, otherwise projects
`horizonMonths` future periods linearly from the average delta and reports
the trend signals. -/
def forecastCosts (history : List ℚ) (horizonMonths : Nat) :
    Except EngineError CostForecast :=
  if history.length < 2 then Except.error EngineError.insufficientData
  else
    Except.ok
      { historical_data := history
        forecast := (List.range horizonMonths).map
          (fun i => history.getLastD 0 + monthlyDelta history * ((i : ℚ) + 1))
        trend_direction := trendFromRate (changeRate history)
        monthly_change_rate := changeRate history }

/-- The trend direction of a forecast outcome, when it succeeded. -/
def trendDirOf : Except EngineError CostForecast → Option TrendDirection
  | Except.ok f => some f.trend_direction
  | Except.error _ => none

/-- The monthly change rate of a forecast outcome (0 on failure). -/
def rateOf : Except EngineError CostForecast → ℚ
  | Except.ok f => f.monthly_change_rate
  | Except.error _ => 0

/-- Whether a forecast run succeeded. -/
def forecastSucceeds : Except EngineError CostForecast → Bool
  | Except.ok _ => true
  | Except.error _ => false

/-- In a strictly increasing cost history of length at least 2, the first
element is strictly below the last. -/
theorem headD_lt_getLastD_of_chain :
    ∀ l : List ℚ, List.Chain' (· < ·) l → 2 ≤ l.length →
      l.headD 0 < l.getLastD 0 := by
  intro l
  induction l with
  | nil => intro _ hl; simp at hl
  | cons a rest ih =>
    intro hc hl
    cases rest with
    | nil => simp at hl
    | cons b t =>
      have hab : a < b := (List.chain'_cons.mp hc).1
      have hct : List.Chain' (· < ·) (b :: t) := (List.chain'_cons.mp hc).2
      cases t with
      | nil => simpa [List.getLastD] using hab
      | cons cc t' =>
        have hbt : (b :: cc :: t').headD 0 < (b :: cc :: t').getLastD 0 :=
          ih hct (by simp)
        have hb : (b : ℚ) < (cc :: t').getLastD b := by
          simpa [List.getLastD_cons] using hbt
        have : a < (cc :: t').getLastD b := lt_trans hab hb
        simpa [List.getLastD_cons] using this

/-- A positive rate never classifies as `decreasing`. -/
theorem trendFromRate_ne_decreasing (rate : ℚ) (h : 0 < rate) :
    trendFromRate rate ≠ TrendDirection.decreasing := by
  rw [trendFromRate]
  split_ifs <;> simp_all

/-- Under a strictly increasing history with positive start, the change rate
is positive. -/
theorem changeRate_pos (history : List ℚ)
    (hc : List.Chain' (· < ·) history) (hl : 2 ≤ history.length)
    (hpos : 0 < history.headD 0) : 0 < changeRate history := by
  have hlast := headD_lt_getLastD_of_chain history hc hl
  have hlen : (0 : ℚ) < (history.length : ℚ) - 1 := by
    have h2 : (2 : ℚ) ≤ (history.length : ℚ) := by exact_mod_cast hl
    linarith
  have hdelta : 0 < monthlyDelta history :=
    div_pos (by linarith) hlen
  exact div_pos hdelta hpos

/-- C7 counterexample: the history `[100, 101]` is strictly increasing with
at least 2 points, yet `Forecast` classifies it as `stable` — the stable
band `|rate| < 2%` (spec §3) overrides the claimed `increasing` direction. -/
theorem forecast_strictly_increasing_can_be_stable :
    List.Chain' (· < ·) [(100 : ℚ), 101]
    ∧ trendDirOf (forecastCosts [(100 : ℚ), 101] 3)
        = some TrendDirection.stable
    ∧ TrendDirection.stable ≠ TrendDirection.increasing := by
  refine ⟨?_, ?_, by simp⟩
  · exact List.chain'_pair.mpr (by norm_num)
  · have h1 : changeRate [(100 : ℚ), 101] = 1 / 100 := by
      norm_num [changeRate, monthlyDelta, List.getLastD]
    have h2 : trendFromRate (changeRate [(100 : ℚ), 101])
        = TrendDirection.stable := by
      rw [h1, trendFromRate, if_pos]
      rw [abs_of_pos (by norm_num)]
      norm_num [stableBand]
    simp [forecastCosts, trendDirOf, h2]

/-- C7 (amended): for every strictly increasing history with at least 2
points and positive starting cost, `Forecast` succeeds with
`monthly_change_rate > 0` and a direction that is never `decreasing` (it is
`increasing` whenever the rate clears the stable band, as for
`[100, 120, 140, 160]`); with fewer than 2 points it fails with
`InsufficientData` instead of guessing a trend. -/
theorem forecast_monotone_consistent :
    (∀ (history : List ℚ) (horizon : Nat),
        List.Chain' (· < ·) history → 2 ≤ history.length →
        0 < history.headD 0 →
        forecastSucceeds (forecastCosts history horizon) = true
        ∧ 0 < rateOf (forecastCosts history horizon)
        ∧ trendDirOf (forecastCosts history horizon)
            ≠ some TrendDirection.decreasing)
    ∧ (∀ (history : List ℚ) (horizon : Nat), history.length < 2 →
        forecastCosts history horizon
          = Except.error EngineError.insufficientData)
    ∧ trendDirOf (forecastCosts [(100 : ℚ), 120, 140, 160] 3)
        = some TrendDirection.increasing
    ∧ 0 < rateOf (forecastCosts [(100 : ℚ), 120, 140, 160] 3) := by
  have hconc : changeRate [(100 : ℚ), 120, 140, 160] = 1 / 5 := by
    norm_num [changeRate, monthlyDelta, List.getLastD]
  have hdir : trendFromRate (changeRate [(100 : ℚ), 120, 140, 160])
      = TrendDirection.increasing := by
    rw [hconc, trendFromRate, if_neg, if_pos (by norm_num)]
    rw [abs_of_pos (by norm_num)]
    norm_num [stableBand]
  refine ⟨?_, ?_, ?_, ?_⟩
  · intro history horizon hc hl hpos
    have hnlt : ¬ history.length < 2 := not_lt.mpr hl
    have hrate := changeRate_pos history hc hl hpos
    refine ⟨?_, ?_, ?_⟩
    · simp [forecastCosts, hnlt, forecastSucceeds]
    · simpa [forecastCosts, hnlt, rateOf] using hrate
    · simp only [forecastCosts, if_neg hnlt, trendDirOf]
      intro hEq
      exact trendFromRate_ne_decreasing _ hrate (Option.some.inj hEq)
  · intro history horizon hlt
    simp [forecastCosts, hlt]
  · simp [forecastCosts, trendDirOf, hdir]
  · simp [forecastCosts, rateOf, hconc]

theorem forecast_monotone_consistent_witness :
    (List.Chain' (· < ·) [(100 : ℚ), 120, 140, 160]
      ∧ 2 ≤ ([(100 : ℚ), 120, 140, 160]).length
      ∧ 0 < ([(100 : ℚ), 120, 140, 160]).headD 0
      ∧ (forecastSucceeds (forecastCosts [(100 : ℚ), 120, 140, 160] 6) = true
          ∧ 0 < rateOf (forecastCosts [(100 : ℚ), 120, 140, 160] 6)
          ∧ trendDirOf (forecastCosts [(100 : ℚ), 120, 140, 160] 6)
              ≠ some TrendDirection.decreasing))
    ∧ (([(42 : ℚ)]).length < 2
        ∧ forecastCosts [(42 : ℚ)] 6
            = Except.error EngineError.insufficientData) :=
  ⟨⟨by simp [List.chain'_cons]; norm_num, by norm_num, by norm_num,
    forecast_monotone_consistent.1 [(100 : ℚ), 120, 140, 160] 6
      (by simp [List.chain'_cons]; norm_num) (by norm_num) (by norm_num)⟩,
   ⟨by norm_num,
    forecast_monotone_consistent.2.1 [(42 : ℚ)] 6 (by norm_num)⟩⟩

/-- Three-level efficiency classification (types/index.ts: `good`,
`moderate`, `poor`). -/
inductive EfficiencyClass where
  | good
  | moderate
  | poor
deriving DecidableEq, Repr

/-- The direction tag of a `poor` classification (spec §4.2): over- vs
under-provisioned. -/
inductive ProvisionDirection where
  | overProvisioned
  | underProvisioned
deriving DecidableEq, Repr

/-- Modelled from the spec: the Efficiency Scorer's fixed classification
thresholds (§4.2) — utilization above 100% is `poor` (under-provisioned),
below 40% is `poor` (over-provisioned), between 40% and 75% inclusive is
`moderate`, above 75% up to 100% is `good`. -/
def classifyUtilization (u : ℚ) : EfficiencyClass :=
  if 1 < u then EfficiencyClass.poor
  else if u < 2 / 5 then EfficiencyClass.poor
  else if u ≤ 3 / 4 then EfficiencyClass.moderate
  else EfficiencyClass.good

/-- Modelled from the spec: the direction tag distinguishing the two `poor`
failure modes (§4.2). -/
def provisionDirection (u : ℚ) : Option ProvisionDirection :=
  if 1 < u then some ProvisionDirection.underProvisioned
  else if u < 2 / 5 then some ProvisionDirection.overProvisioned
  else none

/-- Modelled from the spec: the mean utilization of a dimension over
(usage, requests) samples — mean of `usage / requests` over the samples with
nonzero requests (§4.2). -/
def meanUtilization (samples : List (ℚ × ℚ)) : ℚ :=
  let qualifying := samples.filter (fun s => s.2 != 0)
  ((qualifying.map (fun s => s.1 / s.2)).sum) / (qualifying.length : ℚ)

/-- C8 counterexample: a mean utilization of 150% is above 75% yet
classifies as `poor` (under-provisioned, spec §4.2), not `good`. -/
theorem efficiency_above75_not_always_good :
    (3 : ℚ) / 4 < 3 / 2
    ∧ classifyUtilization (3 / 2) = EfficiencyClass.poor
    ∧ EfficiencyClass.poor ≠ EfficiencyClass.good := by
  refine ⟨by norm_num, ?_, by simp⟩
  rw [classifyUtilization, if_pos (by norm_num)]

/-- C8 (amended): the Efficiency Scorer classifies mean utilization by fixed
thresholds — below 40% `poor`, 40% to 75% (both boundaries inclusive)
`moderate`, above 75% up to 100% `good`, and above 100% `poor` tagged
under-provisioned; exactly 40% and exactly 75% both classify `moderate`. -/
theorem efficiency_classification_thresholds :
    (∀ u : ℚ, u < 2 / 5 → classifyUtilization u = EfficiencyClass.poor)
    ∧ (∀ u : ℚ, 2 / 5 ≤ u → u ≤ 3 / 4 →
        classifyUtilization u = EfficiencyClass.moderate)
    ∧ (∀ u : ℚ, 3 / 4 < u → u ≤ 1 →
        classifyUtilization u = EfficiencyClass.good)
    ∧ (∀ u : ℚ, 1 < u → classifyUtilization u = EfficiencyClass.poor
        ∧ provisionDirection u = some ProvisionDirection.underProvisioned)
    ∧ classifyUtilization (2 / 5) = EfficiencyClass.moderate
    ∧ classifyUtilization (3 / 4) = EfficiencyClass.moderate
    ∧ meanUtilization [((2 : ℚ) / 5, 1)] = 2 / 5
    ∧ meanUtilization [((3 : ℚ) / 4, 1)] = 3 / 4 := by
  refine ⟨?_, ?_, ?_, ?_, ?_, ?_, ?_, ?_⟩
  · intro u h
    have ha : ¬ (1 : ℚ) < u := by linarith
    rw [classifyUtilization, if_neg ha, if_pos h]
  · intro u h1 h2
    have ha : ¬ (1 : ℚ) < u := by linarith
    have hb : ¬ u < 2 / 5 := by linarith
    rw [classifyUtilization, if_neg ha, if_neg hb, if_pos h2]
  · intro u h1 h2
    have ha : ¬ (1 : ℚ) < u := by linarith
    have hb : ¬ u < 2 / 5 := by linarith
    have hc : ¬ u ≤ 3 / 4 := by linarith
    rw [classifyUtilization, if_neg ha, if_neg hb, if_neg hc]
  · intro u h
    constructor
    · rw [classifyUtilization, if_pos h]
    · rw [provisionDirection, if_pos h]
  · rw [classifyUtilization, if_neg (by norm_num), if_neg (by norm_num),
      if_pos (by norm_num)]
  · rw [classifyUtilization, if_neg (by norm_num), if_neg (by norm_num),
      if_pos (by norm_num)]
  · norm_num [meanUtilization]
  · norm_num [meanUtilization]

theorem efficiency_classification_thresholds_witness :
    ((1 : ℚ) / 5 < 2 / 5 ∧ classifyUtilization (1 / 5) = EfficiencyClass.poor)
    ∧ ((2 : ℚ) / 5 ≤ 1 / 2 ∧ (1 : ℚ) / 2 ≤ 3 / 4
        ∧ classifyUtilization (1 / 2) = EfficiencyClass.moderate)
    ∧ ((3 : ℚ) / 4 < 4 / 5 ∧ (4 : ℚ) / 5 ≤ 1
        ∧ classifyUtilization (4 / 5) = EfficiencyClass.good)
    ∧ ((1 : ℚ) < 3 / 2
        ∧ provisionDirection (3 / 2)
            = some ProvisionDirection.underProvisioned) :=
  ⟨⟨by norm_num, efficiency_classification_thresholds.1 (1 / 5) (by norm_num)⟩,
   ⟨by norm_num, by norm_num,
    efficiency_classification_thresholds.2.1 (1 / 2) (by norm_num) (by norm_num)⟩,
   ⟨by norm_num, by norm_num,
    efficiency_classification_thresholds.2.2.1 (4 / 5) (by norm_num) (by norm_num)⟩,
   ⟨by norm_num,
    (efficiency_classification_thresholds.2.2.2.1 (3 / 2) (by norm_num)).2⟩⟩

/-- A JavaScript `number` as needed by the frontend arithmetic: a finite
rational, an infinity, or NaN.  Rounding is not modelled; the embedded
computation's claim concerns finiteness, and division by an exact zero is
what produces the infinities. -/
inductive JSNum where
  | num (q : ℚ)
  | posInf
  | negInf
  | nan
deriving DecidableEq, Repr

/-- IEEE-style subtraction on `JSNum`. -/
def jsSub : JSNum → JSNum → JSNum
  | JSNum.nan, _ => JSNum.nan
  | _, JSNum.nan => JSNum.nan
  | JSNum.num a, JSNum.num b => JSNum.num (a - b)
  | JSNum.num _, JSNum.posInf => JSNum.negInf
  | JSNum.num _, JSNum.negInf => JSNum.posInf
  | JSNum.posInf, JSNum.num _ => JSNum.posInf
  | JSNum.negInf, JSNum.num _ => JSNum.negInf
  | JSNum.posInf, JSNum.negInf => JSNum.posInf
  | JSNum.negInf, JSNum.posInf => JSNum.negInf
  | JSNum.posInf, JSNum.posInf => JSNum.nan
  | JSNum.negInf, JSNum.negInf => JSNum.nan

/-- IEEE-style division on `JSNum`: a nonzero finite value divided by zero
gives a signed infinity, `0 / 0` gives NaN. -/
def jsDiv : JSNum → JSNum → JSNum
  | JSNum.nan, _ => JSNum.nan
  | _, JSNum.nan => JSNum.nan
  | JSNum.num a, JSNum.num b =>
      if b = 0 then
        if 0 < a then JSNum.posInf
        else if a < 0 then JSNum.negInf
        else JSNum.nan
      else JSNum.num (a / b)
  | JSNum.num _, JSNum.posInf => JSNum.num 0
  | JSNum.num _, JSNum.negInf => JSNum.num 0
  | JSNum.posInf, JSNum.num b => if 0 ≤ b then JSNum.posInf else JSNum.negInf
  | JSNum.negInf, JSNum.num b => if 0 ≤ b then JSNum.negInf else JSNum.posInf
  | JSNum.posInf, JSNum.posInf => JSNum.nan
  | JSNum.posInf, JSNum.negInf => JSNum.nan
  | JSNum.negInf, JSNum.posInf => JSNum.nan
  | JSNum.negInf, JSNum.negInf => JSNum.nan

/-- IEEE-style multiplication on `JSNum`. -/
def jsMul : JSNum → JSNum → JSNum
  | JSNum.nan, _ => JSNum.nan
  | _, JSNum.nan => JSNum.nan
  | JSNum.num a, JSNum.num b => JSNum.num (a * b)
  | JSNum.posInf, JSNum.num b =>
      if 0 < b then JSNum.posInf else if b < 0 then JSNum.negInf else JSNum.nan
  | JSNum.negInf, JSNum.num b =>
      if 0 < b then JSNum.negInf else if b < 0 then JSNum.posInf else JSNum.nan
  | JSNum.num a, JSNum.posInf =>
      if 0 < a then JSNum.posInf else if a < 0 then JSNum.negInf else JSNum.nan
  | JSNum.num a, JSNum.negInf =>
      if 0 < a then JSNum.negInf else if a < 0 then JSNum.posInf else JSNum.nan
  | JSNum.posInf, JSNum.posInf => JSNum.posInf
  | JSNum.posInf, JSNum.negInf => JSNum.negInf
  | JSNum.negInf, JSNum.posInf => JSNum.negInf
  | JSNum.negInf, JSNum.negInf => JSNum.posInf

/-- Whether a `JSNum` is a finite number. -/
def JSNum.isFinite : JSNum → Bool
  | JSNum.num _ => true
  | _ => false

/-- `CostTrend`, mirroring `frontend/src/types/index.ts`. -/
structure CostTrend where
  period : String
  cost : ℚ
  namespace_costs : List (String × ℚ)
deriving DecidableEq, Repr

/-- Embedded from `Overview` (src/unnamed/part_001, lines 78–86): the Cost
Trend metric value — when the fetched trend list has more than one element,
`(costTrends[costTrends.length - 1].cost - costTrends[0].cost) /
costTrends[0].cost * 100`, with no guard on the first period's cost;
otherwise 0. -/
def costTrendMetric (costTrends : List CostTrend) : JSNum :=
  if costTrends.length > 1 then
    jsMul
      (jsDiv
        (jsSub (JSNum.num (costTrends.getLastD ⟨"", 0, []⟩).cost)
          (JSNum.num (costTrends.headD ⟨"", 0, []⟩).cost))
        (JSNum.num (costTrends.headD ⟨"", 0, []⟩).cost))
      (JSNum.num 100)
  else JSNum.num 0

/-- C9: in the Overview page, the Cost Trend metric divides by the first
period's cost with no zero guard — for every trend list with at least 2
elements whose first cost is 0 and whose last cost is nonzero, the displayed
value is not a finite number. -/
theorem overview_cost_trend_division_by_zero (trends : List CostTrend)
    (h2 : 2 ≤ trends.length)
    (h0 : (trends.headD ⟨"", 0, []⟩).cost = 0)
    (hl : (trends.getLastD ⟨"", 0, []⟩).cost ≠ 0) :
    (costTrendMetric trends).isFinite = false := by
  rw [costTrendMetric, if_pos (by omega), h0]
  rcases lt_or_gt_of_ne hl with hneg | hpos
  · rw [show jsSub (JSNum.num (trends.getLastD ⟨"", 0, []⟩).cost) (JSNum.num 0)
        = JSNum.num ((trends.getLastD ⟨"", 0, []⟩).cost) from by
      simp [jsSub]]
    rw [show jsDiv (JSNum.num ((trends.getLastD ⟨"", 0, []⟩).cost)) (JSNum.num 0)
        = JSNum.negInf from by
      rw [jsDiv, if_pos rfl, if_neg (by linarith), if_pos hneg]]
    rw [show jsMul JSNum.negInf (JSNum.num 100) = JSNum.negInf from by
      rw [jsMul, if_pos (by norm_num)]]
    rfl
  · rw [show jsSub (JSNum.num (trends.getLastD ⟨"", 0, []⟩).cost) (JSNum.num 0)
        = JSNum.num ((trends.getLastD ⟨"", 0, []⟩).cost) from by
      simp [jsSub]]
    rw [show jsDiv (JSNum.num ((trends.getLastD ⟨"", 0, []⟩).cost)) (JSNum.num 0)
        = JSNum.posInf from by
      rw [jsDiv, if_pos rfl, if_pos hpos]]
    rw [show jsMul JSNum.posInf (JSNum.num 100) = JSNum.posInf from by
      rw [jsMul, if_pos (by norm_num)]]
    rfl

theorem overview_cost_trend_division_by_zero_witness :
    2 ≤ ([⟨"2026-01", 0, []⟩, ⟨"2026-02", 50, []⟩] : List CostTrend).length
    ∧ (([⟨"2026-01", 0, []⟩, ⟨"2026-02", 50, []⟩] : List CostTrend).headD
        ⟨"", 0, []⟩).cost = 0
    ∧ (([⟨"2026-01", 0, []⟩, ⟨"2026-02", 50, []⟩] : List CostTrend).getLastD
        ⟨"", 0, []⟩).cost ≠ 0
    ∧ (costTrendMetric [⟨"2026-01", 0, []⟩, ⟨"2026-02", 50, []⟩]).isFinite
        = false :=
  ⟨by norm_num, by norm_num [List.headD], by norm_num [List.getLastD],
   overview_cost_trend_division_by_zero _ (by norm_num)
     (by norm_num [List.headD]) (by norm_num [List.getLastD])⟩

/-- Embedded from `Recommendations` (src/unnamed/part_002, lines 243–258):
the status-update actions the page can issue — for each listed
recommendation, the Implement and Dismiss buttons (targets `implemented` and
`dismissed`) are rendered only under `rec.status === 'pending'`. -/
def statusUpdateActions (recs : List OptimizationRecommendation) :
    List (Nat × RecStatus) :=
  (recs.map (fun rec =>
    if rec.status = RecStatus.pending then
      [(rec.id, RecStatus.implemented), (rec.id, RecStatus.dismissed)]
    else [])).flatten

/-- C10: the Recommendations page never issues a status update out of a
terminal state — every action it can issue targets `implemented` or
`dismissed`, and belongs to a listed recommendation whose status is
`pending`. -/
theorem recommendations_page_updates_only_pending
    (recs : List OptimizationRecommendation) (id : Nat) (st : RecStatus)
    (h : (id, st) ∈ statusUpdateActions recs) :
    (st = RecStatus.implemented ∨ st = RecStatus.dismissed)
    ∧ ∃ r ∈ recs, r.id = id ∧ r.status = RecStatus.pending := by
  rcases List.mem_flatten.mp h with ⟨l, hl, hmem⟩
  rcases List.mem_map.mp hl with ⟨r, hr, rfl⟩
  by_cases hp : r.status = RecStatus.pending
  · rw [if_pos hp] at hmem
    rcases List.mem_cons.mp hmem with heq | hmem2
    · obtain ⟨hid, hst⟩ := Prod.mk.injEq .. ▸ heq
      exact ⟨Or.inl hst, ⟨r, hr, hid.symm, hp⟩⟩
    · rcases List.mem_singleton.mp hmem2 with heq2
      obtain ⟨hid, hst⟩ := Prod.mk.injEq .. ▸ heq2
      exact ⟨Or.inr hst, ⟨r, hr, hid.symm, hp⟩⟩
  · rw [if_neg hp] at hmem
    cases hmem

theorem recommendations_page_updates_only_pending_witness :
    ((1, RecStatus.implemented) ∈ statusUpdateActions [sampleRecC2])
    ∧ ((RecStatus.implemented = RecStatus.implemented
          ∨ RecStatus.implemented = RecStatus.dismissed)
        ∧ ∃ r ∈ [sampleRecC2], r.id = 1 ∧ r.status = RecStatus.pending) :=
  ⟨by simp [statusUpdateActions, sampleRecC2],
   recommendations_page_updates_only_pending [sampleRecC2] 1
     RecStatus.implemented (by simp [statusUpdateActions, sampleRecC2])⟩
